import Mathlib

/-
Verification of the encrypted storage directory of the seshat repository
(src/encrypteddir.rs), shallowly embedded in Lean.  Byte strings are
`List Nat`; the cryptographic primitives of the external `crypto` crate
(PBKDF2, HKDF, HMAC-SHA256, the AES-256 block cipher driving CTR mode)
are parameters collected in `CryptoPrims`, since their internals are not
part of this repository.  CTR mode itself (xor with a keystream) is
embedded concretely, as the roundtrip and length behaviour of CTR is what
the code relies on.
-/

namespace Seshat

/-- Distinct failure cases observable from the key vault of
`src/encrypteddir.rs`.  `shortRead` is a failing `read_exact`,
`invalidVersion` the "invalid index store version" error, `macMismatch`
the "invalid MAC of the store key" error, `decryptOverflow` the
`BufferOverflow` case of decrypting the stored master key, `ioError` a
lower-level write failure.  The specification groups `shortRead` and
`invalidVersion` as `CorruptKeyFile` and `macMismatch` (and the
decryption-length failure) as `WrongPassphrase`. -/
inductive KeyError where
  | emptyPassphrase
  | keyFileMissing
  | ioError
  | shortRead
  | invalidVersion
  | macMismatch
  | decryptOverflow
deriving DecidableEq

/-- Failure cases of the content-read paths of the facade.
`fileDoesNotExist` models tantivy's `OpenReadError::FileDoesNotExist`
(the spec's `NotFound`); `authenticationFailed` is the codec's
authentication failure. -/
inductive ReadError where
  | fileDoesNotExist
  | authenticationFailed
deriving DecidableEq

instance {ε α : Type} [DecidableEq ε] [DecidableEq α] : DecidableEq (Except ε α) :=
  fun x y =>
    match x, y with
    | Except.error a, Except.error b =>
      if h : a = b then Decidable.isTrue (congrArg Except.error h)
      else Decidable.isFalse (fun hc => h (Except.error.inj hc))
    | Except.error _, Except.ok _ => Decidable.isFalse (fun hc => Except.noConfusion hc)
    | Except.ok _, Except.error _ => Decidable.isFalse (fun hc => Except.noConfusion hc)
    | Except.ok a, Except.ok b =>
      if h : a = b then Decidable.isTrue (congrArg Except.ok h)
      else Decidable.isFalse (fun hc => h (Except.ok.inj hc))

/-- The cryptographic primitives the code takes from the `crypto` crate.
`pbkdf2 pass salt` is the 64-byte PBKDF2-HMAC-SHA512 output, `hkdf ikm`
the 64-byte HKDF-SHA512 expansion, `hmac key msg` the 32-byte
HMAC-SHA256 tag, and `ctr key iv i` the i-th byte of the AES-256-CTR
keystream for `key` and `iv`. -/
structure CryptoPrims where
  pbkdf2 : List Nat → List Nat → List Nat
  hkdf : List Nat → List Nat
  hmac : List Nat → List Nat → List Nat
  ctr : List Nat → List Nat → Nat → Nat

/-- CTR mode: xor the data with the keystream starting at index `i`. -/
def ctrStream (p : CryptoPrims) (key iv : List Nat) (i : Nat) : List Nat → List Nat
  | [] => []
  | b :: bs => (b ^^^ p.ctr key iv i) :: ctrStream p key iv (i + 1) bs

/-- AES-256-CTR applied to a whole buffer (`CtrMode::new` followed by a
full encrypt or decrypt pass); CTR encryption and decryption are the
same xor operation. -/
def ctrApply (p : CryptoPrims) (key iv data : List Nat) : List Nat :=
  ctrStream p key iv 0 data

/-- The `rederive_key` function: PBKDF2 output split at `KEY_SIZE = 32`
into the key-encryption key and the HMAC key. -/
def rederiveKey (p : CryptoPrims) (pass salt : List Nat) : List Nat × List Nat :=
  ((p.pbkdf2 pass salt).take 32, (p.pbkdf2 pass salt).drop 32)

/-- The `expand_store_key` function: HKDF output split at 32 into the
content encryption key and the content MAC key. -/
def expandStoreKey (p : CryptoPrims) (sk : List Nat) : List Nat × List Nat :=
  ((p.hkdf sk).take 32, (p.hkdf sk).drop 32)

/-- The `calculate_hmac` function: HMAC over
version, iv, salt, encrypted key, in that input order. -/
def calculateHmac (p : CryptoPrims) (version : Nat) (iv salt encryptedKey key : List Nat) :
    List Nat :=
  p.hmac key ([version] ++ iv ++ salt ++ encryptedKey)

/-- Field of the key file read after the version byte: the 16-byte iv. -/
def kfIv (kf : List Nat) : List Nat := (kf.drop 1).take 16

/-- Field of the key file: the 16-byte salt following the iv. -/
def kfSalt (kf : List Nat) : List Nat := ((kf.drop 1).drop 16).take 16

/-- Field of the key file: the 32-byte MAC following the salt. -/
def kfMac (kf : List Nat) : List Nat := (((kf.drop 1).drop 16).drop 16).take 32

/-- Field of the key file: the trailing ciphertext of the master key
(read with `read_to_end`, so of arbitrary length). -/
def kfCt (kf : List Nat) : List Nat := (((kf.drop 1).drop 16).drop 16).drop 32

/-- The `load_store_key` function.  The version byte, iv, salt and MAC
are read with `read_exact` (failing on a file shorter than 65 bytes) and
the ciphertext with `read_to_end`; then the version is checked, the keys
are rederived from the passphrase and the salt, the MAC is verified, and
only then is the master key decrypted.  Decryption writes into a fixed
32-byte buffer, so a ciphertext longer than 32 bytes overflows it; a
shorter one leaves trailing zero bytes. -/
def loadStoreKey (p : CryptoPrims) (kf : List Nat) (pass : List Nat) :
    Except KeyError (List Nat) :=
  if kf.length < 65 then Except.error KeyError.shortRead
  else if kf.getD 0 0 ≠ 1 then Except.error KeyError.invalidVersion
  else if calculateHmac p (kf.getD 0 0) (kfIv kf) (kfSalt kf) (kfCt kf)
      (rederiveKey p pass (kfSalt kf)).2 ≠ kfMac kf then
    Except.error KeyError.macMismatch
  else if 32 < (kfCt kf).length then Except.error KeyError.decryptOverflow
  else Except.ok (ctrApply p (rederiveKey p pass (kfSalt kf)).1 (kfIv kf) (kfCt kf) ++
    List.replicate (32 - (kfCt kf).length) 0)

/-- The `encrypt_store_key` function: the bytes it writes to the key
file, in the order version, iv, salt, MAC, ciphertext, where the MAC
covers version, iv, salt and ciphertext. -/
def encryptStoreKey (p : CryptoPrims) (key salt hmacKey storeKey iv : List Nat) : List Nat :=
  let encryptedKey := ctrApply p key iv storeKey
  [1] ++ iv ++ salt ++ calculateHmac p 1 iv salt encryptedKey hmacKey ++ encryptedKey

/-- The five `write_all` chunks of `encrypt_store_key`, in write order.
`File::create` truncates the key file before the first chunk is
written. -/
def keyFileChunks (p : CryptoPrims) (key salt hmacKey storeKey iv : List Nat) :
    List (List Nat) :=
  let encryptedKey := ctrApply p key iv storeKey
  [[1], iv, salt, calculateHmac p 1 iv salt encryptedKey hmacKey, encryptedKey]

/-- Contents of the key file after `File::create` and the first `k`
successful `write_all` calls of `encrypt_store_key`. -/
def encryptStoreKeyPartial (p : CryptoPrims) (key salt hmacKey storeKey iv : List Nat)
    (k : Nat) : List Nat :=
  ((keyFileChunks p key salt hmacKey storeKey iv).take k).flatten

/-- The random draws `encrypt_store_key`, `create_new_store` and
`derive_key` take from the OS RNG. -/
structure Rng where
  iv : List Nat
  salt : List Nat
  masterKey : List Nat

/-- The `create_new_store` function: derive keys from the passphrase and
a fresh salt, generate a fresh master key, and write the encrypted key
file.  Returns the master key and the key file bytes. -/
def createNewStore (p : CryptoPrims) (pass : List Nat) (rng : Rng) : List Nat × List Nat :=
  let kd := rederiveKey p pass rng.salt
  (rng.masterKey, encryptStoreKey p kd.1 rng.salt kd.2 rng.masterKey rng.iv)

/-- The `EncryptedMmapDirectory::open` function over an explicit file
state.  `mmap` is the outcome of `MmapDirectory::open`, which the code
runs before anything else; the empty-passphrase check follows it; then
the key file is loaded if present and created otherwise.  Returns the
result (the expanded working keys and the key file) together with the
key file state left on disk. -/
def openDirFS (p : CryptoPrims) (mmap : Except KeyError Unit) (kf : Option (List Nat))
    (pass : List Nat) (rng : Rng) :
    Except KeyError (List Nat × List Nat) × Option (List Nat) :=
  match mmap with
  | Except.error e => (Except.error e, kf)
  | Except.ok _ =>
    if pass = [] then (Except.error KeyError.emptyPassphrase, kf)
    else
      match kf with
      | some f =>
        match loadStoreKey p f pass with
        | Except.error e => (Except.error e, some f)
        | Except.ok sk => (Except.ok (expandStoreKey p sk), some f)
      | none =>
        let cr := createNewStore p pass rng
        (Except.ok (expandStoreKey p cr.1), some cr.2)

/-- The `change_passphrase` function over an explicit file state, with
write-fault injection.  Both passphrases must be non-empty; the key file
must exist; the master key is loaded under the old passphrase; fresh
keys are derived from the new passphrase; then `encrypt_store_key`
truncates the key file in place with `File::create` and writes the five
chunks.  `failAt = some k` makes the `write_all` call after chunk `k`
fail with an I/O error, leaving the first `k` chunks on disk. -/
def changePassphraseWith (p : CryptoPrims) (failAt : Option Nat) (kf : Option (List Nat))
    (old new : List Nat) (rng : Rng) : Except KeyError Unit × Option (List Nat) :=
  if old = [] ∨ new = [] then (Except.error KeyError.emptyPassphrase, kf)
  else
    match kf with
    | none => (Except.error KeyError.keyFileMissing, none)
    | some f =>
      match loadStoreKey p f old with
      | Except.error e => (Except.error e, some f)
      | Except.ok sk =>
        let kd := rederiveKey p new rng.salt
        match failAt with
        | none => (Except.ok (), some (encryptStoreKey p kd.1 rng.salt kd.2 sk rng.iv))
        | some k =>
          if 5 ≤ k then (Except.ok (), some (encryptStoreKey p kd.1 rng.salt kd.2 sk rng.iv))
          else (Except.error KeyError.ioError,
                some (encryptStoreKeyPartial p kd.1 rng.salt kd.2 sk rng.iv k))

/-- The `change_passphrase` function without injected write faults. -/
def changePassphrase (p : CryptoPrims) (kf : Option (List Nat)) (old new : List Nat)
    (rng : Rng) : Except KeyError Unit × Option (List Nat) :=
  changePassphraseWith p none kf old new rng

/-- Modelled from the spec: the `aesstream` module (AesWriter/AesReader)
is declared in lib.rs but its source is not under src.  Per section 4.B
a codec-produced file is a header carrying the IV, the ciphertext, and a
terminal authentication tag; this encoder writes the 16-byte IV, then
the CTR ciphertext, then the HMAC-SHA256 tag over IV and ciphertext. -/
def encryptFile (p : CryptoPrims) (dataKey macKey iv plain : List Nat) : List Nat :=
  let ct := ctrApply p dataKey iv plain
  iv ++ ct ++ p.hmac macKey (iv ++ ct)

/-- The IV header of a codec file: its first 16 bytes. -/
def cfIv (f : List Nat) : List Nat := f.take 16

/-- The ciphertext of a codec file: everything between the 16-byte IV
header and the 32-byte terminal tag. -/
def cfCt (f : List Nat) : List Nat := (f.drop 16).take ((f.drop 16).length - 32)

/-- The terminal tag of a codec file: its last 32 bytes. -/
def cfTag (f : List Nat) : List Nat := (f.drop 16).drop ((f.drop 16).length - 32)

/-- Modelled from the spec: the `aesstream` reader (module not under
src).  Per section 4.B it recovers the IV from the header, verifies the
terminal tag over the whole ciphertext, fails with an authentication
error on any tag mismatch or truncation, and surfaces no plaintext from
an unauthenticated frame.  A file shorter than the 16-byte header plus
the 32-byte tag cannot authenticate at all. -/
def decryptFile (p : CryptoPrims) (dataKey macKey f : List Nat) : Except ReadError (List Nat) :=
  if f.length < 48 then Except.error ReadError.authenticationFailed
  else if p.hmac macKey (cfIv f ++ cfCt f) ≠ cfTag f then
    Except.error ReadError.authenticationFailed
  else Except.ok (ctrApply p dataKey (cfIv f) (cfCt f))

/-- The backing directory is a finite map from paths to raw bytes. -/
abbrev Dir := List (String × List Nat)

/-- Name of the key file inside the directory. -/
def KEYFILE : String := "seshat-index.key"

/-- Lookup in the backing directory. -/
def dirGet : Dir → String → Option (List Nat)
  | [], _ => none
  | (q, v) :: r, s => if q = s then some v else dirGet r s

/-- Store a file in the backing directory. -/
def dirSet (d : Dir) (s : String) (v : List Nat) : Dir := (s, v) :: d

/-- The backing `MmapDirectory::exists`: a plain lookup. -/
def mmapExists (d : Dir) (s : String) : Bool := (dirGet d s).isSome

/-- The backing `MmapDirectory` read paths: the whole file's bytes, or
`FileDoesNotExist`. -/
def mmapAtomicRead (d : Dir) (s : String) : Except ReadError (List Nat) :=
  match dirGet d s with
  | none => Except.error ReadError.fileDoesNotExist
  | some f => Except.ok f

/-- The facade's `exists`: delegated verbatim to the backing directory
(src/encrypteddir.rs line 363); no path is filtered. -/
def facadeExists (d : Dir) (s : String) : Bool := mmapExists d s

/-- The facade's `open_read`: read the backing file whole and decrypt it
through the codec.  The path is not inspected. -/
def facadeOpenRead (p : CryptoPrims) (dataKey macKey : List Nat) (d : Dir) (s : String) :
    Except ReadError (List Nat) :=
  match mmapAtomicRead d s with
  | Except.error e => Except.error e
  | Except.ok f => decryptFile p dataKey macKey f

/-- The facade's `atomic_read`: identical shape to `open_read`. -/
def facadeAtomicRead (p : CryptoPrims) (dataKey macKey : List Nat) (d : Dir) (s : String) :
    Except ReadError (List Nat) :=
  facadeOpenRead p dataKey macKey d s

/-- The facade's `atomic_write`: encrypt the whole input with a fresh
codec instance and hand the ciphertext to the backing atomic write. -/
def facadeAtomicWrite (p : CryptoPrims) (dataKey macKey : List Nat) (d : Dir) (s : String)
    (data iv : List Nat) : Dir :=
  dirSet d s (encryptFile p dataKey macKey iv data)

/-- Modelled from the spec: the state of an `aesstream::AesWriter`
(module not under src).  `AesWriter::new` writes the IV header; writes
buffer plaintext; its flush encrypts the pending plaintext and writes
the terminal tag, which is what makes the terminating write of the
adapter (which delegates to this same flush) produce an authenticated
file as section 4.B requires. -/
structure AesWriterState where
  iv : List Nat
  buf : List Nat
  out : List Nat

/-- Modelled from the spec: `AesWriter::new` writes the IV header. -/
def awNew (iv : List Nat) : AesWriterState := ⟨iv, [], iv⟩

/-- Modelled from the spec: appending plaintext to the writer. -/
def awWrite (s : AesWriterState) (b : List Nat) : AesWriterState :=
  ⟨s.iv, s.buf ++ b, s.out⟩

/-- Modelled from the spec: `AesWriter::flush` drains the pending
plaintext through CTR and writes the terminal authentication tag. -/
def awFlush (p : CryptoPrims) (dataKey macKey : List Nat) (s : AesWriterState) :
    AesWriterState :=
  let ct := ctrApply p dataKey s.iv s.buf
  ⟨s.iv, [], s.out ++ ct ++ p.hmac macKey (s.iv ++ ct)⟩

/-- The adapter's `Write::flush` for `AesFile`
(src/encrypteddir.rs lines 68 to 71): it calls `self.0.flush()`. -/
def aesFileFlush (p : CryptoPrims) (dataKey macKey : List Nat) (s : AesWriterState) :
    AesWriterState :=
  awFlush p dataKey macKey s

/-- The adapter's `terminate_ref` for `AesFile`
(src/encrypteddir.rs lines 76 to 78): it also calls `self.0.flush()`. -/
def aesFileTerminate (p : CryptoPrims) (dataKey macKey : List Nat) (s : AesWriterState) :
    AesWriterState :=
  awFlush p dataKey macKey s

theorem ctrStream_length (p : CryptoPrims) (key iv : List Nat) (i : Nat) (d : List Nat) :
    (ctrStream p key iv i d).length = d.length := by
  induction d generalizing i with
  | nil => rfl
  | cons b bs ih => simp [ctrStream, ih]

theorem ctrApply_length (p : CryptoPrims) (key iv d : List Nat) :
    (ctrApply p key iv d).length = d.length :=
  ctrStream_length p key iv 0 d

theorem ctrStream_ctrStream (p : CryptoPrims) (key iv : List Nat) (i : Nat) (d : List Nat) :
    ctrStream p key iv i (ctrStream p key iv i d) = d := by
  induction d generalizing i with
  | nil => rfl
  | cons b bs ih => simp [ctrStream, Nat.xor_assoc, ih]

theorem ctrApply_ctrApply (p : CryptoPrims) (key iv d : List Nat) :
    ctrApply p key iv (ctrApply p key iv d) = d :=
  ctrStream_ctrStream p key iv 0 d

theorem kfIv_parsed (iv salt mac ct : List Nat) (hiv : iv.length = 16) :
    kfIv (1 :: (iv ++ (salt ++ (mac ++ ct)))) = iv := by
  simp only [kfIv, List.drop_succ_cons, List.drop_zero]
  exact List.take_left' hiv

theorem kfSalt_parsed (iv salt mac ct : List Nat)
    (hiv : iv.length = 16) (hsalt : salt.length = 16) :
    kfSalt (1 :: (iv ++ (salt ++ (mac ++ ct)))) = salt := by
  simp only [kfSalt, List.drop_succ_cons, List.drop_zero]
  rw [List.drop_left' hiv]
  exact List.take_left' hsalt

theorem kfMac_parsed (iv salt mac ct : List Nat)
    (hiv : iv.length = 16) (hsalt : salt.length = 16) (hmac : mac.length = 32) :
    kfMac (1 :: (iv ++ (salt ++ (mac ++ ct)))) = mac := by
  simp only [kfMac, List.drop_succ_cons, List.drop_zero]
  rw [List.drop_left' hiv, List.drop_left' hsalt]
  exact List.take_left' hmac

theorem kfCt_parsed (iv salt mac ct : List Nat)
    (hiv : iv.length = 16) (hsalt : salt.length = 16) (hmac : mac.length = 32) :
    kfCt (1 :: (iv ++ (salt ++ (mac ++ ct)))) = ct := by
  simp only [kfCt, List.drop_succ_cons, List.drop_zero]
  rw [List.drop_left' hiv, List.drop_left' hsalt]
  exact List.drop_left' hmac

theorem encryptStoreKey_eq (p : CryptoPrims) (key salt hmacKey storeKey iv : List Nat) :
    encryptStoreKey p key salt hmacKey storeKey iv =
      1 :: (iv ++ (salt ++
        (calculateHmac p 1 iv salt (ctrApply p key iv storeKey) hmacKey ++
         ctrApply p key iv storeKey))) := by
  simp [encryptStoreKey, List.append_assoc]

theorem encryptStoreKey_length (p : CryptoPrims) (key salt hmacKey storeKey iv : List Nat)
    (hmacLen : ∀ k m, (p.hmac k m).length = 32)
    (hiv : iv.length = 16) (hsalt : salt.length = 16) (hsk : storeKey.length = 32) :
    (encryptStoreKey p key salt hmacKey storeKey iv).length = 97 := by
  simp [encryptStoreKey, calculateHmac, hmacLen, hiv, hsalt, ctrApply_length, hsk]

theorem loadStoreKey_parsed (p : CryptoPrims) (pass iv salt mac ct : List Nat)
    (hiv : iv.length = 16) (hsalt : salt.length = 16) (hmac : mac.length = 32) :
    loadStoreKey p (1 :: (iv ++ (salt ++ (mac ++ ct)))) pass =
      (if calculateHmac p 1 iv salt ct (rederiveKey p pass salt).2 ≠ mac then
        Except.error KeyError.macMismatch
      else if 32 < ct.length then Except.error KeyError.decryptOverflow
      else Except.ok (ctrApply p (rederiveKey p pass salt).1 iv ct ++
        List.replicate (32 - ct.length) 0)) := by
  have hlen : (1 :: (iv ++ (salt ++ (mac ++ ct)))).length = 65 + ct.length := by
    simp [hiv, hsalt, hmac]; omega
  rw [loadStoreKey, hlen]
  rw [if_neg (by omega)]
  rw [kfIv_parsed iv salt mac ct hiv, kfSalt_parsed iv salt mac ct hiv hsalt,
      kfMac_parsed iv salt mac ct hiv hsalt hmac, kfCt_parsed iv salt mac ct hiv hsalt hmac]
  simp only [List.getD_cons_zero]
  rw [if_neg (by simp)]

theorem loadStoreKey_encryptStoreKey (p : CryptoPrims) (pass salt storeKey iv : List Nat)
    (hmacLen : ∀ k m, (p.hmac k m).length = 32)
    (hiv : iv.length = 16) (hsalt : salt.length = 16) (hsk : storeKey.length = 32) :
    loadStoreKey p
      (encryptStoreKey p (rederiveKey p pass salt).1 salt (rederiveKey p pass salt).2
        storeKey iv) pass = Except.ok storeKey := by
  have hctlen : (ctrApply p (rederiveKey p pass salt).1 iv storeKey).length = 32 := by
    rw [ctrApply_length]; exact hsk
  rw [encryptStoreKey_eq,
      loadStoreKey_parsed p pass iv salt
        (calculateHmac p 1 iv salt (ctrApply p (rederiveKey p pass salt).1 iv storeKey)
          (rederiveKey p pass salt).2)
        (ctrApply p (rederiveKey p pass salt).1 iv storeKey)
        hiv hsalt (by simp [calculateHmac, hmacLen])]
  rw [if_neg (by simp)]
  rw [if_neg (by omega)]
  rw [hctlen]
  simp [ctrApply_ctrApply]

theorem loadStoreKey_ok_length (p : CryptoPrims) (kf pass sk : List Nat)
    (h : loadStoreKey p kf pass = Except.ok sk) : sk.length = 32 := by
  rw [loadStoreKey] at h
  by_cases h1 : kf.length < 65
  · rw [if_pos h1] at h; cases h
  rw [if_neg h1] at h
  by_cases h2 : kf.getD 0 0 ≠ 1
  · rw [if_pos h2] at h; cases h
  rw [if_neg h2] at h
  by_cases h3 : calculateHmac p (kf.getD 0 0) (kfIv kf) (kfSalt kf) (kfCt kf)
      (rederiveKey p pass (kfSalt kf)).2 ≠ kfMac kf
  · rw [if_pos h3] at h; cases h
  rw [if_neg h3] at h
  by_cases h4 : 32 < (kfCt kf).length
  · rw [if_pos h4] at h; cases h
  rw [if_neg h4] at h
  injection h with h5
  subst h5
  simp only [List.length_append, ctrApply_length, List.length_replicate]
  omega

theorem cfIv_parsed (iv ct tag : List Nat) (hiv : iv.length = 16) :
    cfIv (iv ++ (ct ++ tag)) = iv := by
  simp only [cfIv]
  exact List.take_left' hiv

theorem cfCt_parsed (iv ct tag : List Nat) (hiv : iv.length = 16) (htag : tag.length = 32) :
    cfCt (iv ++ (ct ++ tag)) = ct := by
  simp only [cfCt]
  rw [List.drop_left' hiv]
  have h : (ct ++ tag).length - 32 = ct.length := by simp [htag]
  rw [h]
  exact List.take_left' rfl

theorem cfTag_parsed (iv ct tag : List Nat) (hiv : iv.length = 16) (htag : tag.length = 32) :
    cfTag (iv ++ (ct ++ tag)) = tag := by
  simp only [cfTag]
  rw [List.drop_left' hiv]
  have h : (ct ++ tag).length - 32 = ct.length := by simp [htag]
  rw [h]
  exact List.drop_left' rfl

theorem encryptFile_eq (p : CryptoPrims) (dataKey macKey iv plain : List Nat) :
    encryptFile p dataKey macKey iv plain =
      iv ++ (ctrApply p dataKey iv plain ++
        p.hmac macKey (iv ++ ctrApply p dataKey iv plain)) := by
  simp [encryptFile, List.append_assoc]

theorem encryptFile_length (p : CryptoPrims) (dataKey macKey iv plain : List Nat)
    (hmacLen : ∀ k m, (p.hmac k m).length = 32) (hiv : iv.length = 16) :
    (encryptFile p dataKey macKey iv plain).length = 48 + plain.length := by
  simp [encryptFile, hmacLen, hiv, ctrApply_length]
  omega

theorem decryptFile_encryptFile (p : CryptoPrims)
    (hmacLen : ∀ k m, (p.hmac k m).length = 32)
    (dataKey macKey iv plain : List Nat) (hiv : iv.length = 16) :
    decryptFile p dataKey macKey (encryptFile p dataKey macKey iv plain) = Except.ok plain := by
  have hlen := encryptFile_length p dataKey macKey iv plain hmacLen hiv
  rw [decryptFile, hlen, if_neg (by omega), encryptFile_eq]
  rw [cfIv_parsed _ _ _ hiv, cfCt_parsed _ _ _ hiv (hmacLen _ _),
      cfTag_parsed _ _ _ hiv (hmacLen _ _)]
  rw [if_neg (by simp)]
  rw [ctrApply_ctrApply]

theorem dirGet_dirSet (d : Dir) (s : String) (v : List Nat) :
    dirGet (dirSet d s v) s = some v := by
  simp [dirGet, dirSet]

/-- A concrete, fully computable instantiation of the cryptographic
primitive interface, used only to evaluate the development on closed
inputs (witnesses and counterexamples).  The real PBKDF2-HMAC-SHA512,
HKDF-SHA512, HMAC-SHA256 and the AES keystream live in the external
`crypto` crate. -/
def cprims : CryptoPrims where
  pbkdf2 := fun pass salt =>
    List.replicate 32 ((pass.sum + salt.sum + 1) % 256) ++
    List.replicate 32 ((pass.sum + 2 * salt.sum + 2) % 256)
  hkdf := fun ikm => List.replicate 64 ((ikm.sum + 3) % 256)
  hmac := fun k m =>
    ((k.sum + 2 * m.sum + m.length) % 256) :: List.replicate 31 ((k.sum + m.sum) % 256)
  ctr := fun k iv i => (k.sum + iv.sum + i) % 256

theorem cprims_hmac_length : ∀ k m, (cprims.hmac k m).length = 32 := fun _ _ => rfl

/-- Concrete salt used in closed statements. -/
def salt0 : List Nat := List.replicate 16 3

/-- Concrete iv used in closed statements. -/
def iv0 : List Nat := List.replicate 16 4

/-- Concrete master key used in closed statements. -/
def sk0 : List Nat := List.replicate 32 5

/-- Concrete key file produced under passphrase `[10]`. -/
def kf0 : List Nat :=
  encryptStoreKey cprims (rederiveKey cprims [10] salt0).1 salt0
    (rederiveKey cprims [10] salt0).2 sk0 iv0

/-- Concrete randomness for closed statements. -/
def rng0 : Rng := ⟨iv0, salt0, sk0⟩

/-- A second concrete randomness draw. -/
def rng1 : Rng := ⟨List.replicate 16 7, List.replicate 16 6, List.replicate 32 8⟩

/-- Concrete working keys expanded from `sk0`. -/
def keys0 : List Nat × List Nat := expandStoreKey cprims sk0

/-- C10: `open` opens the backing mmap directory before validating the
passphrase or touching the key file, so when the backing directory open
fails, `open` returns that error even for an empty passphrase; the
empty-passphrase rejection is observable only once the backing directory
opened successfully. -/
theorem open_backing_dir_first (p : CryptoPrims) (e : KeyError) (kf : Option (List Nat))
    (pass : List Nat) (rng : Rng) :
    openDirFS p (Except.error e) kf pass rng = (Except.error e, kf) ∧
    (pass = [] → openDirFS p (Except.ok ()) kf pass rng
        = (Except.error KeyError.emptyPassphrase, kf)) := by
  constructor
  · rfl
  · intro h; subst h; rfl

/-- Witness for `open_backing_dir_first` at concrete inputs. -/
theorem open_backing_dir_first_witness :
    openDirFS cprims (Except.error KeyError.ioError) (some kf0) [] rng0
      = (Except.error KeyError.ioError, some kf0) ∧
    openDirFS cprims (Except.ok ()) (some kf0) [] rng0
      = (Except.error KeyError.emptyPassphrase, some kf0) :=
  ⟨(open_backing_dir_first cprims KeyError.ioError (some kf0) [] rng0).1,
   (open_backing_dir_first cprims KeyError.ioError (some kf0) [] rng0).2 rfl⟩

/-- C9: `open` with an empty passphrase fails with the empty-passphrase
error, as do `change_passphrase` calls in which either passphrase is
empty; in every such case the key file state is unchanged and in
particular no key file is created. -/
theorem empty_passphrase_rejected (p : CryptoPrims) (kf : Option (List Nat))
    (old new pass : List Nat) (rng : Rng) (failAt : Option Nat)
    (hpass : pass = []) (hempty : old = [] ∨ new = []) :
    openDirFS p (Except.ok ()) kf pass rng = (Except.error KeyError.emptyPassphrase, kf) ∧
    changePassphraseWith p failAt kf old new rng
      = (Except.error KeyError.emptyPassphrase, kf) ∧
    changePassphrase p kf old new rng = (Except.error KeyError.emptyPassphrase, kf) := by
  subst hpass
  refine ⟨rfl, ?_, ?_⟩
  · rw [changePassphraseWith.eq_def, if_pos hempty]
  · rw [changePassphrase, changePassphraseWith.eq_def, if_pos hempty]

/-- Witness for `empty_passphrase_rejected`: opening a fresh directory
with the empty passphrase creates no key file, and both empty-passphrase
shapes of `change_passphrase` leave the key file untouched. -/
theorem empty_passphrase_rejected_witness :
    openDirFS cprims (Except.ok ()) none [] rng0
      = (Except.error KeyError.emptyPassphrase, none) ∧
    changePassphraseWith cprims none none [] [10] rng0
      = (Except.error KeyError.emptyPassphrase, none) ∧
    changePassphrase cprims none [] [10] rng0
      = (Except.error KeyError.emptyPassphrase, none) :=
  empty_passphrase_rejected cprims none [] [10] [] rng0 none rfl (Or.inl rfl)

/-- C5: with a key file present, loading it fails with `shortRead`
(spec: `CorruptKeyFile`) when the file is shorter than the 65 bytes the
four `read_exact` calls need, with `invalidVersion` (spec:
`CorruptKeyFile`) when the version byte differs from 1, and with
`macMismatch` (spec: `WrongPassphrase`) exactly when the MAC computed
under the keys derived from the passphrase and the stored salt differs
from the stored MAC; the MAC is checked before any decryption of the
master key, and a successful load implies the MAC verified. -/
theorem open_failure_taxonomy (p : CryptoPrims) (kf pass : List Nat) :
    (kf.length < 65 → loadStoreKey p kf pass = Except.error KeyError.shortRead) ∧
    (¬ kf.length < 65 → kf.getD 0 0 ≠ 1 →
        loadStoreKey p kf pass = Except.error KeyError.invalidVersion) ∧
    (¬ kf.length < 65 → kf.getD 0 0 = 1 →
      (loadStoreKey p kf pass = Except.error KeyError.macMismatch ↔
        calculateHmac p 1 (kfIv kf) (kfSalt kf) (kfCt kf)
          (rederiveKey p pass (kfSalt kf)).2 ≠ kfMac kf)) ∧
    (∀ sk, loadStoreKey p kf pass = Except.ok sk →
      calculateHmac p (kf.getD 0 0) (kfIv kf) (kfSalt kf) (kfCt kf)
        (rederiveKey p pass (kfSalt kf)).2 = kfMac kf) := by
  refine ⟨?_, ?_, ?_, ?_⟩
  · intro h; rw [loadStoreKey, if_pos h]
  · intro h1 h2; rw [loadStoreKey, if_neg h1, if_pos h2]
  · intro h1 h2
    rw [loadStoreKey, if_neg h1, if_neg (fun hc => hc h2), h2]
    constructor
    · intro hres
      by_cases hmac : calculateHmac p 1 (kfIv kf) (kfSalt kf) (kfCt kf)
          (rederiveKey p pass (kfSalt kf)).2 ≠ kfMac kf
      · exact hmac
      · exfalso
        rw [if_neg hmac] at hres
        by_cases h4 : 32 < (kfCt kf).length
        · rw [if_pos h4] at hres; cases hres
        · rw [if_neg h4] at hres; cases hres
    · intro hne; rw [if_pos hne]
  · intro sk hres
    rw [loadStoreKey] at hres
    by_cases h1 : kf.length < 65
    · rw [if_pos h1] at hres; cases hres
    rw [if_neg h1] at hres
    by_cases h2 : kf.getD 0 0 ≠ 1
    · rw [if_pos h2] at hres; cases hres
    rw [if_neg h2] at hres
    by_cases h3 : calculateHmac p (kf.getD 0 0) (kfIv kf) (kfSalt kf) (kfCt kf)
        (rederiveKey p pass (kfSalt kf)).2 ≠ kfMac kf
    · rw [if_pos h3] at hres; cases hres
    · exact not_not.mp h3

/-- Witness for `open_failure_taxonomy`: a 3-byte key file is a short
read, a wrong version byte is a version error, and a zeroed 97-byte file
with version 1 is a MAC mismatch. -/
theorem open_failure_taxonomy_witness :
    loadStoreKey cprims [1, 2, 3] [10] = Except.error KeyError.shortRead ∧
    loadStoreKey cprims (7 :: List.replicate 96 0) [10]
      = Except.error KeyError.invalidVersion ∧
    loadStoreKey cprims (1 :: List.replicate 96 0) [10]
      = Except.error KeyError.macMismatch :=
  ⟨(open_failure_taxonomy cprims [1, 2, 3] [10]).1 (by decide),
   (open_failure_taxonomy cprims (7 :: List.replicate 96 0) [10]).2.1
     (by decide) (by decide),
   ((open_failure_taxonomy cprims (1 :: List.replicate 96 0) [10]).2.2.1
     (by decide) (by decide)).mpr (by decide)⟩

/-- C7: every key file written at store creation or by a successful
passphrase change is the 97-byte sequence version 1, 16-byte iv, 16-byte
salt, 32-byte MAC, then the exactly 32-byte CTR ciphertext of the
32-byte master key, where the MAC is the HMAC of version, iv, salt and
ciphertext in that order. -/
theorem keyfile_format (p : CryptoPrims) (hmacLen : ∀ k m, (p.hmac k m).length = 32)
    (key salt hmacKey storeKey iv : List Nat)
    (hiv : iv.length = 16) (hsalt : salt.length = 16) (hsk : storeKey.length = 32) :
    encryptStoreKey p key salt hmacKey storeKey iv =
      [1] ++ iv ++ salt ++
        p.hmac hmacKey ([1] ++ iv ++ salt ++ ctrApply p key iv storeKey) ++
        ctrApply p key iv storeKey ∧
    (encryptStoreKey p key salt hmacKey storeKey iv).length = 97 ∧
    (ctrApply p key iv storeKey).length = 32 ∧
    (∀ pass rng keys kf, pass ≠ [] →
      openDirFS p (Except.ok ()) none pass rng = (Except.ok keys, some kf) →
      kf = encryptStoreKey p (rederiveKey p pass rng.salt).1 rng.salt
        (rederiveKey p pass rng.salt).2 rng.masterKey rng.iv) ∧
    (∀ old new f rng u kf,
      changePassphrase p (some f) old new rng = (Except.ok u, some kf) →
      ∃ sk2, loadStoreKey p f old = Except.ok sk2 ∧ sk2.length = 32 ∧
        kf = encryptStoreKey p (rederiveKey p new rng.salt).1 rng.salt
          (rederiveKey p new rng.salt).2 sk2 rng.iv) := by
  refine ⟨?_, encryptStoreKey_length p key salt hmacKey storeKey iv hmacLen hiv hsalt hsk,
          ?_, ?_, ?_⟩
  · simp [encryptStoreKey, calculateHmac]
  · rw [ctrApply_length]; exact hsk
  · intro pass rng keys kf hpass hopen
    simp only [openDirFS, if_neg hpass, createNewStore] at hopen
    exact (Option.some.inj (congrArg Prod.snd hopen)).symm
  · intro old new f rng u kf hch
    rw [changePassphrase, changePassphraseWith] at hch
    by_cases hemp : old = [] ∨ new = []
    · rw [if_pos hemp] at hch
      injection hch with h1 h2
      cases h1
    rw [if_neg hemp] at hch
    rcases hload : loadStoreKey p f old with e | sk
    · rw [hload] at hch
      injection hch with h1 h2
      cases h1
    · rw [hload] at hch
      injection hch with h1 h2
      exact ⟨sk, rfl, loadStoreKey_ok_length p f old sk hload,
        (Option.some.inj h2).symm⟩

/-- C1: opening a directory with passphrase `P`, writing bytes `B` to a
path through the facade (by `atomic_write`, or by the streaming writer
once terminated), closing, reopening with `P`, and reading the path back
(`open_read`/`atomic_read`) yields exactly `B`; decryption inverts
encryption under the working keys that both opens derive. -/
theorem roundtrip_facade (p : CryptoPrims) (hmacLen : ∀ k m, (p.hmac k m).length = 32)
    (P B ivc : List Nat) (rng rng2 : Rng) (d : Dir) (path : String)
    (hP : P ≠ []) (hiv : rng.iv.length = 16) (hsalt : rng.salt.length = 16)
    (hmk : rng.masterKey.length = 32) (hivc : ivc.length = 16) :
    ∃ dataKey macKey kf,
      openDirFS p (Except.ok ()) none P rng = (Except.ok (dataKey, macKey), some kf) ∧
      openDirFS p (Except.ok ()) (some kf) P rng2 = (Except.ok (dataKey, macKey), some kf) ∧
      facadeAtomicRead p dataKey macKey (facadeAtomicWrite p dataKey macKey d path B ivc)
        path = Except.ok B ∧
      decryptFile p dataKey macKey (encryptFile p dataKey macKey ivc B) = Except.ok B ∧
      (aesFileTerminate p dataKey macKey (awWrite (awNew ivc) B)).out
        = encryptFile p dataKey macKey ivc B := by
  refine ⟨(expandStoreKey p rng.masterKey).1, (expandStoreKey p rng.masterKey).2,
    encryptStoreKey p (rederiveKey p P rng.salt).1 rng.salt (rederiveKey p P rng.salt).2
      rng.masterKey rng.iv, ?_, ?_, ?_, ?_, ?_⟩
  · simp only [openDirFS, if_neg hP, createNewStore]
  · simp only [openDirFS, if_neg hP]
    rw [loadStoreKey_encryptStoreKey p P rng.salt rng.masterKey rng.iv hmacLen hiv hsalt hmk]
  · rw [facadeAtomicRead, facadeOpenRead, facadeAtomicWrite, mmapAtomicRead, dirGet_dirSet]
    exact decryptFile_encryptFile p hmacLen _ _ ivc B hivc
  · exact decryptFile_encryptFile p hmacLen _ _ ivc B hivc
  · simp [aesFileTerminate, awFlush, awWrite, awNew, encryptFile]

/-- Witness for `roundtrip_facade` at concrete inputs. -/
theorem roundtrip_facade_witness :
    ∃ dataKey macKey kf,
      openDirFS cprims (Except.ok ()) none [10] rng0
        = (Except.ok (dataKey, macKey), some kf) ∧
      openDirFS cprims (Except.ok ()) (some kf) [10] rng1
        = (Except.ok (dataKey, macKey), some kf) ∧
      facadeAtomicRead cprims dataKey macKey
        (facadeAtomicWrite cprims dataKey macKey [] "seg" [1, 2, 3] iv0) "seg"
        = Except.ok [1, 2, 3] ∧
      decryptFile cprims dataKey macKey (encryptFile cprims dataKey macKey iv0 [1, 2, 3])
        = Except.ok [1, 2, 3] ∧
      (aesFileTerminate cprims dataKey macKey (awWrite (awNew iv0) [1, 2, 3])).out
        = encryptFile cprims dataKey macKey iv0 [1, 2, 3] :=
  roundtrip_facade cprims cprims_hmac_length [10] [1, 2, 3] iv0 rng0 rng1 [] "seg"
    (by decide) (by decide) (by decide) (by decide) (by decide)

/-- C2: for a codec-produced file, any corruption of the terminal tag
and any truncation below the minimal frame always fail authentication;
any file whose recomputed tag differs from its stored tag (which is what
a bit flip in the header or ciphertext produces, barring an HMAC
collision) fails authentication through `open_read` and `atomic_read`;
and a successful decryption happens only when the stored tag verifies,
so no unauthenticated plaintext is ever returned. -/
theorem codec_authenticity (p : CryptoPrims)
    (dataKey macKey iv B : List Nat) (hiv : iv.length = 16) :
    (∀ tag2, tag2.length = 32 →
      tag2 ≠ p.hmac macKey (iv ++ ctrApply p dataKey iv B) →
      decryptFile p dataKey macKey (iv ++ (ctrApply p dataKey iv B ++ tag2))
        = Except.error ReadError.authenticationFailed) ∧
    (∀ m, m < 48 →
      decryptFile p dataKey macKey ((encryptFile p dataKey macKey iv B).take m)
        = Except.error ReadError.authenticationFailed) ∧
    (∀ F2, p.hmac macKey (cfIv F2 ++ cfCt F2) ≠ cfTag F2 →
      decryptFile p dataKey macKey F2 = Except.error ReadError.authenticationFailed) ∧
    (∀ d path F2, dirGet d path = some F2 →
      decryptFile p dataKey macKey F2 = Except.error ReadError.authenticationFailed →
      facadeOpenRead p dataKey macKey d path = Except.error ReadError.authenticationFailed ∧
      facadeAtomicRead p dataKey macKey d path
        = Except.error ReadError.authenticationFailed) ∧
    (∀ F2 pt, decryptFile p dataKey macKey F2 = Except.ok pt →
      48 ≤ F2.length ∧ p.hmac macKey (cfIv F2 ++ cfCt F2) = cfTag F2 ∧
      pt = ctrApply p dataKey (cfIv F2) (cfCt F2)) := by
  refine ⟨?_, ?_, ?_, ?_, ?_⟩
  · intro tag2 hlen2 hne2
    have hL : (iv ++ (ctrApply p dataKey iv B ++ tag2)).length = 48 + B.length := by
      simp [hiv, hlen2, ctrApply_length]
      omega
    rw [decryptFile, hL, if_neg (by omega)]
    rw [cfIv_parsed _ _ _ hiv, cfCt_parsed _ _ _ hiv hlen2, cfTag_parsed _ _ _ hiv hlen2]
    rw [if_pos (fun hc => hne2 hc.symm)]
  · intro m hm
    have hL : ((encryptFile p dataKey macKey iv B).take m).length < 48 := by
      rw [List.length_take]
      omega
    rw [decryptFile, if_pos hL]
  · intro F2 hne
    rw [decryptFile]
    by_cases hL : F2.length < 48
    · rw [if_pos hL]
    · rw [if_neg hL, if_pos hne]
  · intro d path F2 hget hdec
    constructor
    · rw [facadeOpenRead, mmapAtomicRead, hget]
      exact hdec
    · rw [facadeAtomicRead, facadeOpenRead, mmapAtomicRead, hget]
      exact hdec
  · intro F2 pt hok
    rw [decryptFile] at hok
    by_cases hL : F2.length < 48
    · rw [if_pos hL] at hok; cases hok
    rw [if_neg hL] at hok
    by_cases htag : p.hmac macKey (cfIv F2 ++ cfCt F2) ≠ cfTag F2
    · rw [if_pos htag] at hok; cases hok
    rw [if_neg htag] at hok
    injection hok with h1
    exact ⟨by omega, not_not.mp htag, h1.symm⟩

/-- Witness for `codec_authenticity` at concrete inputs: a corrupted
tag and a truncated file are both rejected. -/
theorem codec_authenticity_witness :
    decryptFile cprims keys0.1 keys0.2
      (iv0 ++ (ctrApply cprims keys0.1 iv0 [1, 2, 3] ++ List.replicate 32 9))
      = Except.error ReadError.authenticationFailed ∧
    decryptFile cprims keys0.1 keys0.2
      ((encryptFile cprims keys0.1 keys0.2 iv0 [1, 2, 3]).take 40)
      = Except.error ReadError.authenticationFailed :=
  ⟨(codec_authenticity cprims keys0.1 keys0.2 iv0 [1, 2, 3]
      (by decide)).1 (List.replicate 32 9) (by decide) (by decide),
   (codec_authenticity cprims keys0.1 keys0.2 iv0 [1, 2, 3]
      (by decide)).2.1 40 (by decide)⟩

/-- Witness for `keyfile_format` at concrete inputs. -/
theorem keyfile_format_witness :
    kf0.length = 97 ∧
    (ctrApply cprims (rederiveKey cprims [10] salt0).1 iv0 sk0).length = 32 :=
  ⟨(keyfile_format cprims cprims_hmac_length (rederiveKey cprims [10] salt0).1 salt0
      (rederiveKey cprims [10] salt0).2 sk0 iv0 (by decide) (by decide) (by decide)).2.1,
   (keyfile_format cprims cprims_hmac_length (rederiveKey cprims [10] salt0).1 salt0
      (rederiveKey cprims [10] salt0).2 sk0 iv0 (by decide) (by decide) (by decide)).2.2.1⟩

theorem decryptFile_ne_fileDoesNotExist (p : CryptoPrims) (dataKey macKey f : List Nat) :
    decryptFile p dataKey macKey f ≠ Except.error ReadError.fileDoesNotExist := by
  rw [decryptFile]
  by_cases hL : f.length < 48
  · rw [if_pos hL]; intro hc; cases hc
  rw [if_neg hL]
  by_cases ht : p.hmac macKey (cfIv f ++ cfCt f) ≠ cfTag f
  · rw [if_pos ht]; intro hc; cases hc
  · rw [if_neg ht]; intro hc; cases hc

/-- C6: after a successful `change_passphrase(old, new)` the master key
is unchanged, so reopening with `new` yields exactly the working keys
the directory had under `old` (hence every content file keeps its
plaintext), while reopening with `old` fails with the MAC-mismatch
error (spec: `WrongPassphrase`), the HMAC keys derived from the two
passphrases being separated. -/
theorem change_passphrase_lossless (p : CryptoPrims)
    (hmacLen : ∀ k m, (p.hmac k m).length = 32)
    (old new f sk : List Nat) (rng rng2 rng3 : Rng)
    (hiv : rng.iv.length = 16) (hsalt : rng.salt.length = 16)
    (hold : old ≠ []) (hnew : new ≠ [])
    (hload : loadStoreKey p f old = Except.ok sk)
    (hsep : calculateHmac p 1 rng.iv rng.salt
        (ctrApply p (rederiveKey p new rng.salt).1 rng.iv sk)
        (rederiveKey p old rng.salt).2
      ≠ calculateHmac p 1 rng.iv rng.salt
        (ctrApply p (rederiveKey p new rng.salt).1 rng.iv sk)
        (rederiveKey p new rng.salt).2) :
    ∃ kf2,
      changePassphrase p (some f) old new rng = (Except.ok (), some kf2) ∧
      openDirFS p (Except.ok ()) (some f) old rng3
        = (Except.ok (expandStoreKey p sk), some f) ∧
      openDirFS p (Except.ok ()) (some kf2) new rng2
        = (Except.ok (expandStoreKey p sk), some kf2) ∧
      openDirFS p (Except.ok ()) (some kf2) old rng3
        = (Except.error KeyError.macMismatch, some kf2) := by
  have hsk : sk.length = 32 := loadStoreKey_ok_length p f old sk hload
  refine ⟨encryptStoreKey p (rederiveKey p new rng.salt).1 rng.salt
    (rederiveKey p new rng.salt).2 sk rng.iv, ?_, ?_, ?_, ?_⟩
  · rw [changePassphrase, changePassphraseWith, if_neg (not_or.mpr ⟨hold, hnew⟩), hload]
  · simp only [openDirFS, if_neg hold]
    rw [hload]
  · simp only [openDirFS, if_neg hnew]
    rw [loadStoreKey_encryptStoreKey p new rng.salt sk rng.iv hmacLen hiv hsalt hsk]
  · simp only [openDirFS, if_neg hold]
    rw [encryptStoreKey_eq,
        loadStoreKey_parsed p old rng.iv rng.salt
          (calculateHmac p 1 rng.iv rng.salt
            (ctrApply p (rederiveKey p new rng.salt).1 rng.iv sk)
            (rederiveKey p new rng.salt).2)
          (ctrApply p (rederiveKey p new rng.salt).1 rng.iv sk)
          hiv hsalt (by simp [calculateHmac, hmacLen])]
    rw [if_pos hsep]

/-- Witness for `change_passphrase_lossless` at concrete inputs. -/
theorem change_passphrase_lossless_witness :
    ∃ kf2,
      changePassphrase cprims (some kf0) [10] [11] rng1 = (Except.ok (), some kf2) ∧
      openDirFS cprims (Except.ok ()) (some kf0) [10] rng0
        = (Except.ok (expandStoreKey cprims sk0), some kf0) ∧
      openDirFS cprims (Except.ok ()) (some kf2) [11] rng0
        = (Except.ok (expandStoreKey cprims sk0), some kf2) ∧
      openDirFS cprims (Except.ok ()) (some kf2) [10] rng0
        = (Except.error KeyError.macMismatch, some kf2) :=
  change_passphrase_lossless cprims cprims_hmac_length [10] [11] kf0 sk0 rng1 rng0 rng0
    (by decide) (by decide) (by decide) (by decide) (by decide) (by decide)

/-- C4 (amended): a `change_passphrase` failure that happens at or
before loading and decrypting the master key under the old passphrase
(empty passphrase, missing key file, short or corrupt key file, MAC
mismatch) leaves the key file byte-identical; only an I/O failure
during the in-place rewrite itself (the branch reporting `ioError`)
can leave a different file, because `encrypt_store_key` truncates the
key file with `File::create` instead of writing a sibling temp file
and renaming. -/
theorem change_passphrase_preserves_on_early_failure (p : CryptoPrims)
    (failAt : Option Nat) (kf : Option (List Nat)) (old new : List Nat) (rng : Rng)
    (e : KeyError)
    (h : (changePassphraseWith p failAt kf old new rng).1 = Except.error e)
    (he : e ≠ KeyError.ioError) :
    (changePassphraseWith p failAt kf old new rng).2 = kf := by
  rw [changePassphraseWith.eq_def] at h ⊢
  by_cases hemp : old = [] ∨ new = []
  · rw [if_pos hemp]
  · rw [if_neg hemp] at h ⊢
    rcases kf with _ | f
    · rfl
    · dsimp only at h ⊢
      rcases hload : loadStoreKey p f old with e2 | sk
      · rfl
      · rw [hload] at h
        dsimp only at h ⊢
        rcases failAt with _ | k
        · simp at h
        · dsimp only at h ⊢
          by_cases h5 : 5 ≤ k
          · rw [if_pos h5] at h; simp at h
          · rw [if_neg h5] at h
            injection h with h6
            exact absurd h6 (fun hc => he hc.symm)

/-- Counterexample to C4 as stated: with a valid key file under the old
passphrase, a write failure on the very first chunk of
`encrypt_store_key` makes `change_passphrase` return an error while
the key file on disk has been truncated to empty, no longer
byte-identical to its previous 97-byte contents. -/
theorem change_passphrase_partial_write_counterexample :
    (changePassphraseWith cprims (some 0) (some kf0) [10] [11] rng1).1
      = Except.error KeyError.ioError ∧
    (changePassphraseWith cprims (some 0) (some kf0) [10] [11] rng1).2 = some [] ∧
    some ([] : List Nat) ≠ some kf0 := by
  exact ⟨by decide, by decide, by decide⟩

/-- Witness for `change_passphrase_preserves_on_early_failure`: a MAC
mismatch under the old passphrase leaves the key file untouched. -/
theorem change_passphrase_preserves_witness :
    (changePassphraseWith cprims (some 0) (some kf0) [12] [11] rng1).2 = some kf0 :=
  change_passphrase_preserves_on_early_failure cprims (some 0) (some kf0) [12] [11] rng1
    KeyError.macMismatch (by decide) (by decide)

/-- C8 (amended): in the adapter both `Write::flush` and
`terminate_ref` delegate to the same `AesWriter` flush, which finalizes
the stream by writing the trailing tag; an intermediate flush therefore
behaves exactly like termination, and a file that was flushed but never
terminated authenticates successfully on read. -/
theorem flush_terminate_same (p : CryptoPrims)
    (hmacLen : ∀ k m, (p.hmac k m).length = 32)
    (dataKey macKey : List Nat) (s : AesWriterState) (iv B : List Nat)
    (hiv : iv.length = 16) :
    aesFileTerminate p dataKey macKey s = aesFileFlush p dataKey macKey s ∧
    (aesFileFlush p dataKey macKey (awWrite (awNew iv) B)).out
      = encryptFile p dataKey macKey iv B ∧
    decryptFile p dataKey macKey
      (aesFileFlush p dataKey macKey (awWrite (awNew iv) B)).out = Except.ok B := by
  have hout : (aesFileFlush p dataKey macKey (awWrite (awNew iv) B)).out
      = encryptFile p dataKey macKey iv B := by
    simp [aesFileFlush, awFlush, awWrite, awNew, encryptFile]
  refine ⟨rfl, hout, ?_⟩
  rw [hout]
  exact decryptFile_encryptFile p hmacLen dataKey macKey iv B hiv

/-- Counterexample to C8 as stated: flushing a never-terminated writer
produces a file that reads back successfully, not one that fails
authentication; flush and terminate perform the same operation. -/
theorem flush_finalizes_counterexample :
    aesFileTerminate cprims keys0.1 keys0.2 (awWrite (awNew iv0) [9, 9, 9])
      = aesFileFlush cprims keys0.1 keys0.2 (awWrite (awNew iv0) [9, 9, 9]) ∧
    decryptFile cprims keys0.1 keys0.2
      (aesFileFlush cprims keys0.1 keys0.2 (awWrite (awNew iv0) [9, 9, 9])).out
      = Except.ok [9, 9, 9] ∧
    (Except.ok [9, 9, 9] : Except ReadError (List Nat))
      ≠ Except.error ReadError.authenticationFailed := by
  exact ⟨rfl, by decide, by decide⟩

/-- Witness for `flush_terminate_same` at concrete inputs. -/
theorem flush_terminate_same_witness :
    aesFileTerminate cprims keys0.1 keys0.2 (awWrite (awNew iv0) [4, 5])
      = aesFileFlush cprims keys0.1 keys0.2 (awWrite (awNew iv0) [4, 5]) ∧
    (aesFileFlush cprims keys0.1 keys0.2 (awWrite (awNew iv0) [4, 5])).out
      = encryptFile cprims keys0.1 keys0.2 iv0 [4, 5] ∧
    decryptFile cprims keys0.1 keys0.2
      (aesFileFlush cprims keys0.1 keys0.2 (awWrite (awNew iv0) [4, 5])).out
      = Except.ok [4, 5] :=
  flush_terminate_same cprims cprims_hmac_length keys0.1 keys0.2
    (awWrite (awNew iv0) [4, 5]) iv0 [4, 5] (by decide)

/-- C3 (amended): the facade does not hide the key file: `exists` is
delegated verbatim to the backing directory and returns true whenever
the key file is present, and `open_read` of the key file does not
return the not-found error: it hands the key file bytes to the codec
(whose authentication then fails, as the key file is not a codec
file). -/
theorem keyfile_not_filtered (p : CryptoPrims) (dataKey macKey : List Nat) (d : Dir)
    (kf : List Nat) (hget : dirGet d KEYFILE = some kf) :
    facadeExists d KEYFILE = mmapExists d KEYFILE ∧
    facadeExists d KEYFILE = true ∧
    facadeOpenRead p dataKey macKey d KEYFILE = decryptFile p dataKey macKey kf ∧
    facadeOpenRead p dataKey macKey d KEYFILE
      ≠ Except.error ReadError.fileDoesNotExist := by
  have hread : facadeOpenRead p dataKey macKey d KEYFILE = decryptFile p dataKey macKey kf := by
    rw [facadeOpenRead, mmapAtomicRead, hget]
  refine ⟨rfl, ?_, hread, ?_⟩
  · rw [facadeExists, mmapExists, hget]
    rfl
  · rw [hread]
    exact decryptFile_ne_fileDoesNotExist p dataKey macKey kf

/-- Counterexample to C3 as stated: with the key file present in the
backing directory, `exists("seshat-index.key")` through the facade
returns true (the claim says false), and `open_read` of it fails with
the authentication error, not with the not-found error the claim
requires. -/
theorem keyfile_visible_counterexample :
    facadeExists [(KEYFILE, kf0)] KEYFILE = true ∧
    facadeOpenRead cprims keys0.1 keys0.2 [(KEYFILE, kf0)] KEYFILE
      = Except.error ReadError.authenticationFailed ∧
    (Except.error ReadError.authenticationFailed : Except ReadError (List Nat))
      ≠ Except.error ReadError.fileDoesNotExist := by
  exact ⟨by decide, by decide, by decide⟩

/-- Witness for `keyfile_not_filtered` at concrete inputs. -/
theorem keyfile_not_filtered_witness :
    facadeExists [(KEYFILE, kf0)] KEYFILE = mmapExists [(KEYFILE, kf0)] KEYFILE ∧
    facadeExists [(KEYFILE, kf0)] KEYFILE = true ∧
    facadeOpenRead cprims keys0.1 keys0.2 [(KEYFILE, kf0)] KEYFILE
      = decryptFile cprims keys0.1 keys0.2 kf0 ∧
    facadeOpenRead cprims keys0.1 keys0.2 [(KEYFILE, kf0)] KEYFILE
      ≠ Except.error ReadError.fileDoesNotExist :=
  keyfile_not_filtered cprims keys0.1 keys0.2 [(KEYFILE, kf0)] kf0 (by decide)

end Seshat
